import Mathlib

/-!
Shallow embedding of the langchain-localai adapters
(`langchain_localai/localai_rerank.py` and
`langchain_localai/localai_embeddings.py`) and proofs about them.

Python mutable metadata dicts are modelled by an explicit store of
metadata mappings addressed by natural numbers: `deepcopy` becomes a
fresh allocation and in-place dict assignment becomes a store write, so
that non-mutation of the caller's documents is a real statement.
Remote endpoints are modelled as oracle functions from requests to
responses, and every adapter entry point additionally returns the list
of requests it issued, so that network-call counting is a real
statement.  Fallible Python operations (sequence indexing, missing JSON
keys) are modelled with `Option` / `Except`.
-/

namespace LangchainLocalai

/-- JSON-like values: document metadata values and relevance scores.
Numbers are modelled as rationals; the adapter never computes on them,
it only passes them through. -/
inductive JVal
  | str (s : String)
  | num (q : ℚ)
  | boolean (b : Bool)
  | null
  | arr (elems : List JVal)
  | obj (fields : List (String × JVal))

/-- A Python metadata dict, as an insertion-ordered association list. -/
abbrev Metadata := List (String × JVal)

/-- Python dict assignment `m[k] = v`: replace the value in place when
the key is present (keeping insertion order), otherwise append. -/
def setKey (m : Metadata) (k : String) (v : JVal) : Metadata :=
  if m.any (fun p => p.1 == k) then
    m.map (fun p => if p.1 == k then (k, v) else p)
  else m ++ [(k, v)]

/-- The heap of mutable metadata dicts; an address is an index. -/
abbrev Store := List Metadata

def Store.read (s : Store) (a : Nat) : Metadata :=
  (s.get? a).getD []

def Store.write (s : Store) (a : Nat) (m : Metadata) : Store :=
  s.set a m

/-- Allocate a fresh metadata dict, returning the new store and the
fresh address. -/
def Store.alloc (s : Store) (m : Metadata) : Store × Nat :=
  (s ++ [m], s.length)

/-- `langchain_core.documents.Document`: page content plus a reference
to its (mutable) metadata dict in the store. -/
structure Document where
  page_content : String
  metaAddr : Nat
deriving DecidableEq

/-- One entry of the rerank response `results` list, after the adapter
extracts `r["index"]` and `r["relevance_score"]`. -/
structure RerankResult where
  index : Int
  relevance_score : JVal

/-- Python sequence indexing `xs[i]` with negative-index semantics:
`none` models the `IndexError` raise. -/
def pyGet? {α : Type} (xs : List α) (i : Int) : Option α :=
  if 0 ≤ i then xs.get? i.toNat
  else if i.natAbs ≤ xs.length then xs.get? (xs.length - i.natAbs)
  else none

/-- `LocalAIRerank._build_compressed_docs`: for each result entry, index
into the original document list, build a new document whose metadata is
a deep copy (fresh allocation) of the original metadata, then assign
`relevance_score` into the new metadata dict. -/
def buildCompressedDocs : Store → List Document → List RerankResult →
    Option (Store × List Document)
  | s, _, [] => some (s, [])
  | s, documents, res :: rest =>
    match pyGet? documents res.index with
    | none => none
    | some original_doc =>
      let allocated := Store.alloc s (Store.read s original_doc.metaAddr)
      let a := allocated.2
      let s2 := Store.write allocated.1 a
        (setKey (Store.read allocated.1 a) ("relevance_score") res.relevance_score)
      match buildCompressedDocs s2 documents rest with
      | none => none
      | some (s3, out) =>
        some (s3, { page_content := original_doc.page_content, metaAddr := a } :: out)

/-- The `LocalAIRerank` adapter configuration fields. -/
structure LocalAIRerank where
  model : String
  top_n : Option Int
  openai_api_key : Option String
  openai_api_base : String

/-- The pydantic constraint on the `top_n` field, `Field(default=3, ge=1)`:
a non-`None` value must be at least 1. -/
def validTopN : Option Int → Bool
  | none => true
  | some n => 1 ≤ n

/-- Constructing a `LocalAIRerank`: pydantic validates the `top_n`
field constraint and rejects the whole construction on violation. -/
def LocalAIRerank.construct (model : String) (top_n : Option Int)
    (openai_api_key : Option String) (openai_api_base : String) :
    Option LocalAIRerank :=
  if validTopN top_n then
    some { model := model, top_n := top_n,
           openai_api_key := openai_api_key, openai_api_base := openai_api_base }
  else none

/-- An element of the `documents` argument of `_rerank_sync` /
`_rerank_async`: a plain string or a `Document`. -/
inductive DocItem
  | str (s : String)
  | doc (d : Document)

/-- The normalization `doc.page_content if isinstance(doc, Document)
else doc` applied to one item. -/
def DocItem.toText : DocItem → String
  | .str s => s
  | .doc d => d.page_content

/-- The JSON body posted to `{base}/v1/rerank`. -/
structure RerankRequest where
  query : String
  documents : List String
  model : String
  top_n : Option Int

/-- The JSON body of a rerank response: an optional top-level `results`
list and an optional `detail` string. -/
structure RerankResponse where
  results? : Option (List RerankResult)
  detail? : Option String

/-- Failures raised by the rerank path: `RuntimeError` on a missing
`results` key, `IndexError` on an out-of-range server index. -/
inductive RerankError
  | runtimeError (msg : String)
  | indexError

/-- `resolved_model = model or self.model` (Python `or` falls back on a
`None` or empty-string argument). -/
def resolveModel (modelArg : Option String) (selfModel : String) : String :=
  match modelArg with
  | none => selfModel
  | some m => if m = "" then selfModel else m

/-- `resolved_top_n = top_n if top_n is not None and top_n > 0 else self.top_n`. -/
def resolveTopN (topNArg selfTopN : Option Int) : Option Int :=
  match topNArg with
  | some n => if 0 < n then some n else selfTopN
  | none => selfTopN

/-- The request `_rerank_sync` / `_rerank_async` build from their
arguments: normalized texts and resolved model / top_n. -/
def rerankRequestOf (r : LocalAIRerank) (documents : List DocItem)
    (query : String) (modelArg : Option String) (topNArg : Option Int) :
    RerankRequest :=
  { query := query
    documents := documents.map DocItem.toText
    model := resolveModel modelArg r.model
    top_n := resolveTopN topNArg r.top_n }

/-- `LocalAIRerank._rerank_sync`: empty-input short-circuit, otherwise
post the request, require the `results` key (raising `RuntimeError`
with the server `detail` or a generic message when absent) and extract
the result entries.  The second component is the list of network
requests issued. -/
def rerank_sync (r : LocalAIRerank) (server : RerankRequest → RerankResponse)
    (documents : List DocItem) (query : String)
    (modelArg : Option String) (topNArg : Option Int) :
    Except RerankError (List RerankResult) × List RerankRequest :=
  if documents.isEmpty then (.ok [], [])
  else
    let data := rerankRequestOf r documents query modelArg topNArg
    let resp := server data
    match resp.results? with
    | none =>
      (.error (.runtimeError (resp.detail?.getD ("Unknown error from rerank API"))), [data])
    | some results => (.ok results, [data])

/-- `LocalAIRerank._rerank_async`: same body as the sync variant (the
`await`s disappear in the embedding). -/
def rerank_async (r : LocalAIRerank) (server : RerankRequest → RerankResponse)
    (documents : List DocItem) (query : String)
    (modelArg : Option String) (topNArg : Option Int) :
    Except RerankError (List RerankResult) × List RerankRequest :=
  if documents.isEmpty then (.ok [], [])
  else
    let data := rerankRequestOf r documents query modelArg topNArg
    let resp := server data
    match resp.results? with
    | none =>
      (.error (.runtimeError (resp.detail?.getD ("Unknown error from rerank API"))), [data])
    | some results => (.ok results, [data])

/-- `LocalAIRerank.compress_documents`: rerank then build the compressed
documents.  The store threads the mutable metadata heap. -/
def compress_documents (r : LocalAIRerank) (server : RerankRequest → RerankResponse)
    (s : Store) (documents : List Document) (query : String) :
    Except RerankError (Store × List Document) × List RerankRequest :=
  let rl := rerank_sync r server (documents.map DocItem.doc) query none none
  match rl.1 with
  | .error e => (.error e, rl.2)
  | .ok results =>
    match buildCompressedDocs s documents results with
    | none => (.error .indexError, rl.2)
    | some pair => (.ok pair, rl.2)

/-- `LocalAIRerank.acompress_documents`: async variant, same logic over
`_rerank_async`. -/
def acompress_documents (r : LocalAIRerank) (server : RerankRequest → RerankResponse)
    (s : Store) (documents : List Document) (query : String) :
    Except RerankError (Store × List Document) × List RerankRequest :=
  let rl := rerank_async r server (documents.map DocItem.doc) query none none
  match rl.1 with
  | .error e => (.error e, rl.2)
  | .ok results =>
    match buildCompressedDocs s documents results with
    | none => (.error .indexError, rl.2)
    | some pair => (.ok pair, rl.2)

/-- The `LocalAIEmbeddings` adapter fields the embedding path reads. -/
structure LocalAIEmbeddings where
  model : String
  deployment : String
  chunk_size : Int
  model_kwargs : List (String × JVal)

/-- The JSON body posted to the embeddings endpoint:
`input` plus `_invocation_params` (model and passthrough kwargs). -/
structure EmbeddingRequest where
  input : List String
  model : String
  kwargs : List (String × JVal)

/-- One element of the response `data` array. -/
structure EmbeddingData where
  embedding : List ℚ

/-- The `str | list[str]` argument of `_embedding_func`. -/
inductive TextInput
  | single (t : String)
  | batch (ts : List String)

/-- `[text] if isinstance(text, str) else text`. -/
def TextInput.toInputList : TextInput → List String
  | .single t => [t]
  | .batch ts => ts

/-- `LocalAIEmbeddings._embedding_func`: one `create` call on the whole
input, then extract `d.embedding` from each `data` element.  The
`engine` argument is accepted and unused, as in the source.  The second
component is the list of requests issued. -/
def embedding_func (e : LocalAIEmbeddings) (server : EmbeddingRequest → List EmbeddingData)
    (text : TextInput) (engine : String) :
    List (List ℚ) × List EmbeddingRequest :=
  let req : EmbeddingRequest :=
    { input := text.toInputList, model := e.model, kwargs := e.model_kwargs }
  ((server req).map EmbeddingData.embedding, [req])

/-- `LocalAIEmbeddings._aembedding_func`: same body as the sync variant. -/
def aembedding_func (e : LocalAIEmbeddings) (server : EmbeddingRequest → List EmbeddingData)
    (text : TextInput) (engine : String) :
    List (List ℚ) × List EmbeddingRequest :=
  let req : EmbeddingRequest :=
    { input := text.toInputList, model := e.model, kwargs := e.model_kwargs }
  ((server req).map EmbeddingData.embedding, [req])

/-- `LocalAIEmbeddings.embed_documents`: forwards the whole list in one
call; the `chunk_size` argument is accepted and ignored. -/
def embed_documents (e : LocalAIEmbeddings) (server : EmbeddingRequest → List EmbeddingData)
    (texts : List String) (chunkArg : Option Int) :
    List (List ℚ) × List EmbeddingRequest :=
  embedding_func e server (.batch texts) e.deployment

/-- `LocalAIEmbeddings.aembed_documents`: async variant. -/
def aembed_documents (e : LocalAIEmbeddings) (server : EmbeddingRequest → List EmbeddingData)
    (texts : List String) (chunkArg : Option Int) :
    List (List ℚ) × List EmbeddingRequest :=
  aembedding_func e server (.batch texts) e.deployment

/-- `LocalAIEmbeddings.embed_query`: `_embedding_func([text], ...)[0]`;
the Python indexing `[0]` is modelled with `get? 0`. -/
def embed_query (e : LocalAIEmbeddings) (server : EmbeddingRequest → List EmbeddingData)
    (text : String) : Option (List ℚ) × List EmbeddingRequest :=
  let rl := embedding_func e server (.batch [text]) e.deployment
  (rl.1.get? 0, rl.2)

/-- `LocalAIEmbeddings.aembed_query`: async variant. -/
def aembed_query (e : LocalAIEmbeddings) (server : EmbeddingRequest → List EmbeddingData)
    (text : String) : Option (List ℚ) × List EmbeddingRequest :=
  let rl := aembedding_func e server (.batch [text]) e.deployment
  (rl.1.get? 0, rl.2)

/-! ### Helper lemmas about the store and Python indexing -/

theorem Store.length_write (s : Store) (a : Nat) (m : Metadata) :
    (Store.write s a m).length = s.length := by
  simp [Store.write]

theorem Store.read_append (s : Store) (m : Metadata) (a : Nat) (h : a < s.length) :
    Store.read (s ++ [m]) a = Store.read s a := by
  simp [Store.read, List.getElem?_append_left h]

theorem Store.read_alloc_self (s : Store) (m : Metadata) :
    Store.read (s ++ [m]) s.length = m := by
  simp [Store.read, List.getElem?_concat_length]

theorem Store.read_write_self (s : Store) (a : Nat) (m : Metadata) (h : a < s.length) :
    Store.read (Store.write s a m) a = m := by
  simp [Store.read, Store.write, List.getElem?_set_eq, h]

theorem Store.read_write_ne (s : Store) (a b : Nat) (m : Metadata) (h : a ≠ b) :
    Store.read (Store.write s a m) b = Store.read s b := by
  simp [Store.read, Store.write, List.getElem?_set_ne h]

theorem pyGet?_nonneg {α : Type} (xs : List α) (i : Int) (h : 0 ≤ i) :
    pyGet? xs i = xs.get? i.toNat := by
  simp [pyGet?, h]

theorem pyGet?_none_of_ge {α : Type} (xs : List α) (i : Int)
    (h : (xs.length : Int) ≤ i) :
    pyGet? xs i = none := by
  have h0 : 0 ≤ i := le_trans (Int.ofNat_nonneg _) h
  rw [pyGet?_nonneg xs i h0]
  rw [List.get?_eq_none]
  omega

theorem pyGet?_neg {α : Type} (xs : List α) (i : Int)
    (hneg : i < 0) (hlen : i.natAbs ≤ xs.length) :
    pyGet? xs i = xs.get? (xs.length - i.natAbs) := by
  have h0 : ¬ (0 ≤ i) := not_le.mpr hneg
  simp [pyGet?, h0, hlen]

theorem pyGet?_mem {α : Type} (xs : List α) (i : Int) (x : α)
    (h : pyGet? xs i = some x) : x ∈ xs := by
  unfold pyGet? at h
  split at h
  · exact List.get?_mem h
  · split at h
    · exact List.get?_mem h
    · exact absurd h (by simp)

/-! ### The master lemma about `buildCompressedDocs` -/

/-- Everything `buildCompressedDocs` guarantees on success: the store
only grows, addresses present before the call keep their contents, one
output document per result entry, and each output document carries the
indexed original's content together with a freshly allocated metadata
dict equal to the original metadata with `relevance_score` assigned. -/
theorem buildCompressedDocs_spec (results : List RerankResult) (s : Store)
    (documents : List Document) (s' : Store) (out : List Document)
    (hdocs : ∀ d ∈ documents, d.metaAddr < s.length)
    (h : buildCompressedDocs s documents results = some (s', out)) :
    s.length ≤ s'.length ∧
    (∀ a, a < s.length → Store.read s' a = Store.read s a) ∧
    (∀ nd ∈ out, s.length ≤ nd.metaAddr) ∧
    out.length = results.length ∧
    (∀ i, ∀ hi : i < results.length, ∀ ho : i < out.length,
      ∃ od, pyGet? documents (results.get ⟨i, hi⟩).index = some od ∧
        (out.get ⟨i, ho⟩).page_content = od.page_content ∧
        Store.read s' (out.get ⟨i, ho⟩).metaAddr =
          setKey (Store.read s od.metaAddr) ("relevance_score")
            (results.get ⟨i, hi⟩).relevance_score) := by
  induction results generalizing s s' out with
  | nil =>
    simp only [buildCompressedDocs, Option.some.injEq, Prod.mk.injEq] at h
    obtain ⟨rfl, rfl⟩ := h
    refine ⟨le_refl _, fun a _ => rfl, by simp, rfl, ?_⟩
    intro i hi
    simp at hi
  | cons res rest ih =>
    simp only [buildCompressedDocs] at h
    cases hget : pyGet? documents res.index with
    | none => rw [hget] at h; exact absurd h (by simp)
    | some od =>
      rw [hget] at h
      simp only [Store.alloc] at h
      set a := s.length with ha
      set s2 := Store.write (s ++ [Store.read s od.metaAddr]) a
        (setKey (Store.read (s ++ [Store.read s od.metaAddr]) a) ("relevance_score")
          res.relevance_score) with hs2
      cases hrec : buildCompressedDocs s2 documents rest with
      | none => rw [hrec] at h; exact absurd h (by simp)
      | some pair =>
        obtain ⟨s3, out'⟩ := pair
        rw [hrec] at h
        simp only [Option.some.injEq, Prod.mk.injEq] at h
        obtain ⟨rfl, rfl⟩ := h
        have hs2len : s2.length = s.length + 1 := by
          rw [hs2, Store.length_write]; simp
        have hdocs2 : ∀ d ∈ documents, d.metaAddr < s2.length := by
          intro d hd
          have := hdocs d hd
          omega
        obtain ⟨ihlen, ihframe, ihfresh, ihcount, ihpoint⟩ :=
          ih s2 s3 out' hdocs2 hrec
        -- contents of `s2` at addresses below `s.length` agree with `s`
        have hs2read : ∀ b, b < s.length → Store.read s2 b = Store.read s b := by
          intro b hb
          rw [hs2, Store.read_write_ne _ _ _ _ (by omega)]
          exact Store.read_append s _ b hb
        -- the fresh address holds the annotated copied metadata
        have hreada : Store.read s2 a =
            setKey (Store.read s od.metaAddr) ("relevance_score") res.relevance_score := by
          rw [hs2, Store.read_write_self _ _ _ (by simp [ha]),
            Store.read_alloc_self]
        refine ⟨by omega, ?_, ?_, by simp [ihcount], ?_⟩
        · intro b hb
          rw [ihframe b (by omega), hs2read b hb]
        · intro nd hnd
          rcases List.mem_cons.mp hnd with rfl | hnd'
        -- the head gets the fresh address `a = s.length`
          · exact le_refl _
          · have := ihfresh nd hnd'
            omega
        · intro i hi ho
          cases i with
          | zero =>
            refine ⟨od, hget, rfl, ?_⟩
            have : Store.read s3 a = Store.read s2 a :=
              ihframe a (by omega)
            simpa [this] using hreada
          | succ j =>
            have hj : j < rest.length := by simpa using hi
            have hj' : j < out'.length := by simpa using ho
            obtain ⟨od', hod', hcontent, hmeta⟩ := ihpoint j hj hj'
            refine ⟨od', hod', by simpa using hcontent, ?_⟩
            have hodaddr : od'.metaAddr < s.length :=
              hdocs od' (pyGet?_mem documents _ od' hod') -- od' is an original
            have : Store.read s2 od'.metaAddr = Store.read s od'.metaAddr :=
              hs2read od'.metaAddr hodaddr
            simpa [this] using hmeta

/-- On an all-in-range results list, `buildCompressedDocs` succeeds. -/
theorem buildCompressedDocs_isSome (results : List RerankResult) (s : Store)
    (documents : List Document)
    (h : ∀ res ∈ results, (pyGet? documents res.index).isSome) :
    (buildCompressedDocs s documents results).isSome := by
  induction results generalizing s with
  | nil => simp [buildCompressedDocs]
  | cons res rest ih =>
    have hhead := h res (by simp)
    cases hget : pyGet? documents res.index with
    | none => rw [hget] at hhead; simp at hhead
    | some od =>
      simp only [buildCompressedDocs, hget, Store.alloc]
      have htail : ∀ r ∈ rest, (pyGet? documents r.index).isSome := by
        intro r hr; exact h r (by simp [hr])
      have hrecSome := ih (Store.write (s ++ [Store.read s od.metaAddr]) s.length
        (setKey (Store.read (s ++ [Store.read s od.metaAddr]) s.length)
          ("relevance_score") res.relevance_score)) htail
      cases hrec : buildCompressedDocs
          (Store.write (s ++ [Store.read s od.metaAddr]) s.length
            (setKey (Store.read (s ++ [Store.read s od.metaAddr]) s.length)
              ("relevance_score") res.relevance_score)) documents rest with
      | none => rw [hrec] at hrecSome; simp at hrecSome
      | some pair => simp [hrec]

/-- Any out-of-range entry makes `buildCompressedDocs` raise. -/
theorem buildCompressedDocs_none_of_bad (results : List RerankResult) (s : Store)
    (documents : List Document)
    (h : ∃ res ∈ results, pyGet? documents res.index = none) :
    buildCompressedDocs s documents results = none := by
  induction results generalizing s with
  | nil => simp at h
  | cons res rest ih =>
    cases hget : pyGet? documents res.index with
    | none => simp [buildCompressedDocs, hget]
    | some od =>
      obtain ⟨r, hr, hrnone⟩ := h
      rcases List.mem_cons.mp hr with rfl | hr'
      · rw [hget] at hrnone; exact absurd hrnone (by simp)
      · simp only [buildCompressedDocs, hget, Store.alloc]
        rw [ih _ ⟨r, hr', hrnone⟩]

/-! ### Request-log projections -/

theorem rerank_sync_snd_cons (r : LocalAIRerank) (server : RerankRequest → RerankResponse)
    (d : DocItem) (ds : List DocItem) (query : String)
    (modelArg : Option String) (topNArg : Option Int) :
    (rerank_sync r server (d :: ds) query modelArg topNArg).2 =
      [rerankRequestOf r (d :: ds) query modelArg topNArg] := by
  simp only [rerank_sync]
  rw [if_neg (by simp)]
  cases h : (server (rerankRequestOf r (d :: ds) query modelArg topNArg)).results? <;>
    simp [h]

theorem rerank_async_snd_cons (r : LocalAIRerank) (server : RerankRequest → RerankResponse)
    (d : DocItem) (ds : List DocItem) (query : String)
    (modelArg : Option String) (topNArg : Option Int) :
    (rerank_async r server (d :: ds) query modelArg topNArg).2 =
      [rerankRequestOf r (d :: ds) query modelArg topNArg] := by
  simp only [rerank_async]
  rw [if_neg (by simp)]
  cases h : (server (rerankRequestOf r (d :: ds) query modelArg topNArg)).results? <;>
    simp [h]

theorem compress_documents_snd (r : LocalAIRerank) (server : RerankRequest → RerankResponse)
    (s : Store) (documents : List Document) (query : String) :
    (compress_documents r server s documents query).2 =
      (rerank_sync r server (documents.map DocItem.doc) query none none).2 := by
  simp only [compress_documents]
  cases h : (rerank_sync r server (documents.map DocItem.doc) query none none).1 with
  | error e => simp [h]
  | ok results =>
    cases h2 : buildCompressedDocs s documents results with
    | none => simp [h, h2]
    | some pair => simp [h, h2]

theorem acompress_documents_snd (r : LocalAIRerank) (server : RerankRequest → RerankResponse)
    (s : Store) (documents : List Document) (query : String) :
    (acompress_documents r server s documents query).2 =
      (rerank_async r server (documents.map DocItem.doc) query none none).2 := by
  simp only [acompress_documents]
  cases h : (rerank_async r server (documents.map DocItem.doc) query none none).1 with
  | error e => simp [h]
  | ok results =>
    cases h2 : buildCompressedDocs s documents results with
    | none => simp [h, h2]
    | some pair => simp [h, h2]

/-! ### Claim theorems -/

/-- C2: whenever the rerank response JSON lacks the top-level `results`
key, `_rerank_sync` and `_rerank_async` raise a `RuntimeError` carrying
the server-supplied `detail` string when present and the generic
message otherwise; they return that failure, never an empty or partial
result list (and the one request was issued). -/
theorem rerank_missing_results_raises (r : LocalAIRerank)
    (server : RerankRequest → RerankResponse) (d : DocItem) (ds : List DocItem)
    (query : String) (modelArg : Option String) (topNArg : Option Int)
    (h : (server (rerankRequestOf r (d :: ds) query modelArg topNArg)).results? = none) :
    rerank_sync r server (d :: ds) query modelArg topNArg =
      (.error (.runtimeError
        (((server (rerankRequestOf r (d :: ds) query modelArg topNArg)).detail?).getD
          ("Unknown error from rerank API"))),
        [rerankRequestOf r (d :: ds) query modelArg topNArg]) ∧
    rerank_async r server (d :: ds) query modelArg topNArg =
      (.error (.runtimeError
        (((server (rerankRequestOf r (d :: ds) query modelArg topNArg)).detail?).getD
          ("Unknown error from rerank API"))),
        [rerankRequestOf r (d :: ds) query modelArg topNArg]) := by
  constructor
  · simp only [rerank_sync]
    rw [if_neg (by simp), h]
  · simp only [rerank_async]
    rw [if_neg (by simp), h]

theorem rerank_missing_results_raises_witness :
    ((fun _ : RerankRequest => RerankResponse.mk none (some ("boom")))
      (rerankRequestOf ⟨"m", some 3, none, ""⟩ [DocItem.str ("a")] "q" none none)).results? =
        none ∧
    rerank_sync ⟨"m", some 3, none, ""⟩ (fun _ => ⟨none, some ("boom")⟩)
        [DocItem.str ("a")] "q" none none =
      (.error (.runtimeError ("boom")),
        [rerankRequestOf ⟨"m", some 3, none, ""⟩ [DocItem.str ("a")] "q" none none]) ∧
    rerank_async ⟨"m", some 3, none, ""⟩ (fun _ => ⟨none, some ("boom")⟩)
        [DocItem.str ("a")] "q" none none =
      (.error (.runtimeError ("boom")),
        [rerankRequestOf ⟨"m", some 3, none, ""⟩ [DocItem.str ("a")] "q" none none]) :=
  ⟨rfl,
    (rerank_missing_results_raises ⟨"m", some 3, none, ""⟩
      (fun _ => ⟨none, some ("boom")⟩) (DocItem.str ("a")) [] "q" none none rfl).1,
    (rerank_missing_results_raises ⟨"m", some 3, none, ""⟩
      (fun _ => ⟨none, some ("boom")⟩) (DocItem.str ("a")) [] "q" none none rfl).2⟩

/-- C3: with an empty document sequence, `compress_documents` and
`acompress_documents` return an empty list and issue no network call;
with a non-empty sequence they issue exactly one request. -/
theorem compress_empty_short_circuit_and_single_call
    (r : LocalAIRerank) (server : RerankRequest → RerankResponse)
    (s : Store) (query : String) :
    compress_documents r server s [] query = (.ok (s, []), []) ∧
    acompress_documents r server s [] query = (.ok (s, []), []) ∧
    (∀ d ds, ((compress_documents r server s (d :: ds) query).2).length = 1) ∧
    (∀ d ds, ((acompress_documents r server s (d :: ds) query).2).length = 1) := by
  refine ⟨rfl, rfl, ?_, ?_⟩
  · intro d ds
    rw [compress_documents_snd]
    simp [rerank_sync_snd_cons]
  · intro d ds
    rw [acompress_documents_snd]
    simp [rerank_async_snd_cons]

/-- C5: the `top_n` sent in the request is the adapter's configured
default when the per-call argument is absent or non-positive, and the
argument itself when it is positive — in both `_rerank_sync` and
`_rerank_async`. -/
theorem rerank_resolved_top_n (r : LocalAIRerank)
    (server : RerankRequest → RerankResponse) (d : DocItem) (ds : List DocItem)
    (query : String) (modelArg : Option String) :
    ((rerank_sync r server (d :: ds) query modelArg none).2.map RerankRequest.top_n =
        [r.top_n] ∧
      (rerank_async r server (d :: ds) query modelArg none).2.map RerankRequest.top_n =
        [r.top_n]) ∧
    (∀ n : Int, n ≤ 0 →
      (rerank_sync r server (d :: ds) query modelArg (some n)).2.map RerankRequest.top_n =
        [r.top_n] ∧
      (rerank_async r server (d :: ds) query modelArg (some n)).2.map RerankRequest.top_n =
        [r.top_n]) ∧
    (∀ n : Int, 0 < n →
      (rerank_sync r server (d :: ds) query modelArg (some n)).2.map RerankRequest.top_n =
        [some n] ∧
      (rerank_async r server (d :: ds) query modelArg (some n)).2.map RerankRequest.top_n =
        [some n]) := by
  refine ⟨⟨?_, ?_⟩, fun n hn => ⟨?_, ?_⟩, fun n hn => ⟨?_, ?_⟩⟩ <;>
    simp [rerank_sync_snd_cons, rerank_async_snd_cons, rerankRequestOf, resolveTopN] <;>
    omega

theorem rerank_resolved_top_n_witness :
    ((rerank_sync ⟨"m", some 3, none, ""⟩ (fun _ => ⟨some [], none⟩)
        [DocItem.str ("a")] "q" none (some 0)).2.map RerankRequest.top_n = [some 3]) ∧
    ((rerank_sync ⟨"m", some 3, none, ""⟩ (fun _ => ⟨some [], none⟩)
        [DocItem.str ("a")] "q" none (some 5)).2.map RerankRequest.top_n = [some 5]) ∧
    ((rerank_sync ⟨"m", some 3, none, ""⟩ (fun _ => ⟨some [], none⟩)
        [DocItem.str ("a")] "q" none none).2.map RerankRequest.top_n = [some 3]) :=
  ⟨((rerank_resolved_top_n ⟨"m", some 3, none, ""⟩ (fun _ => ⟨some [], none⟩)
      (DocItem.str ("a")) [] "q" none).2.1 0 (by decide)).1,
    ((rerank_resolved_top_n ⟨"m", some 3, none, ""⟩ (fun _ => ⟨some [], none⟩)
      (DocItem.str ("a")) [] "q" none).2.2 5 (by decide)).1,
    ((rerank_resolved_top_n ⟨"m", some 3, none, ""⟩ (fun _ => ⟨some [], none⟩)
      (DocItem.str ("a")) [] "q" none).1).1⟩

/-- C7: constructing a `LocalAIRerank` with a non-positive `top_n`
fails pydantic validation outright; no adapter with a clamped value is
produced. -/
theorem construct_rejects_nonpositive_top_n (model : String) (n : Int)
    (key : Option String) (base : String) (h : n ≤ 0) :
    LocalAIRerank.construct model (some n) key base = none := by
  have hn : ¬ (1 ≤ n) := by omega
  simp [LocalAIRerank.construct, validTopN, hn]

theorem construct_rejects_nonpositive_top_n_witness :
    (0 : Int) ≤ 0 ∧
    LocalAIRerank.construct "jina-reranker-v1-base-en" (some 0) none "" = none :=
  ⟨le_refl 0,
    construct_rejects_nonpositive_top_n "jina-reranker-v1-base-en" 0 none "" (le_refl 0)⟩

/-- C8: `embed_documents` issues exactly one request to the embeddings
endpoint, covering the whole text list, whatever the configured
`chunk_size` field and the per-call chunk-size argument. -/
theorem embed_documents_single_request (e : LocalAIEmbeddings)
    (server : EmbeddingRequest → List EmbeddingData)
    (texts : List String) (chunkArg : Option Int) :
    (embed_documents e server texts chunkArg).2 =
      [{ input := texts, model := e.model, kwargs := e.model_kwargs }] := rfl

/-- C9: each async variant computes exactly the same function as its
sync counterpart on identical inputs and identical remote responses. -/
theorem sync_async_agree :
    (∀ r server documents query modelArg topNArg,
      rerank_async r server documents query modelArg topNArg =
        rerank_sync r server documents query modelArg topNArg) ∧
    (∀ r server s documents query,
      acompress_documents r server s documents query =
        compress_documents r server s documents query) ∧
    (∀ e server text engine,
      aembedding_func e server text engine = embedding_func e server text engine) ∧
    (∀ e server texts chunkArg,
      aembed_documents e server texts chunkArg = embed_documents e server texts chunkArg) ∧
    (∀ e server t, aembed_query e server t = embed_query e server t) :=
  ⟨fun _ _ _ _ _ _ => rfl, fun _ _ _ _ _ => rfl, fun _ _ _ _ => rfl,
    fun _ _ _ _ => rfl, fun _ _ _ => rfl⟩

/-- C1: on a valid server response, `compress_documents` (and
`acompress_documents`) returns one document per server result entry, in
the server's order: entry `i` selects the document at position `index`
of the original input list, keeping its content and metadata and adding
only `relevance_score`. -/
theorem compress_documents_selects_original (r : LocalAIRerank)
    (server : RerankRequest → RerankResponse) (s : Store)
    (documents : List Document) (query : String) (results : List RerankResult)
    (hdocs : ∀ d ∈ documents, d.metaAddr < s.length)
    (hresp : (server (rerankRequestOf r (documents.map DocItem.doc) query none none)).results? =
      some results)
    (hidx : ∀ res ∈ results, 0 ≤ res.index ∧ res.index < (documents.length : Int)) :
    ∃ s' out,
      (compress_documents r server s documents query).1 = .ok (s', out) ∧
      (acompress_documents r server s documents query).1 = .ok (s', out) ∧
      out.length = results.length ∧
      ∀ i, ∀ hi : i < results.length, ∀ ho : i < out.length,
        ∃ od, documents.get? (results.get ⟨i, hi⟩).index.toNat = some od ∧
          (out.get ⟨i, ho⟩).page_content = od.page_content ∧
          Store.read s' (out.get ⟨i, ho⟩).metaAddr =
            setKey (Store.read s od.metaAddr) ("relevance_score")
              (results.get ⟨i, hi⟩).relevance_score := by
  cases documents with
  | nil =>
    cases results with
    | nil =>
      refine ⟨s, [], rfl, rfl, rfl, ?_⟩
      intro i hi
      simp at hi
    | cons a t =>
      have := hidx a (by simp)
      simp at this
      omega
  | cons d0 dr =>
    have hsome : ∀ res ∈ results, (pyGet? (d0 :: dr) res.index).isSome := by
      intro res hres
      obtain ⟨h0, hlt⟩ := hidx res hres
      rw [pyGet?_nonneg _ _ h0]
      have hnat : res.index.toNat < (d0 :: dr).length := by omega
      rw [List.get?_eq_get hnat]
      simp
    have hbuild := buildCompressedDocs_isSome results s (d0 :: dr) hsome
    cases hb : buildCompressedDocs s (d0 :: dr) results with
    | none => rw [hb] at hbuild; simp at hbuild
    | some pair =>
      obtain ⟨s', out⟩ := pair
      obtain ⟨_, _, _, hcount, hpoint⟩ :=
        buildCompressedDocs_spec results s (d0 :: dr) s' out hdocs hb
      refine ⟨s', out, ?_, ?_, hcount, ?_⟩
      · simp only [compress_documents, rerank_sync]
        rw [if_neg (by simp), hresp]
        simp [hb]
      · simp only [acompress_documents, rerank_async]
        rw [if_neg (by simp), hresp]
        simp [hb]
      · intro i hi ho
        obtain ⟨od, hod, hcontent, hmeta⟩ := hpoint i hi ho
        have h0 := (hidx _ (List.get_mem results _ hi)).1
        rw [pyGet?_nonneg _ _ h0] at hod
        exact ⟨od, hod, hcontent, hmeta⟩

theorem compress_documents_selects_original_witness :
    (∀ d ∈ [Document.mk ("doc0") 0, Document.mk ("doc1") 1],
      d.metaAddr < (([[("id", JVal.num 0)], [("id", JVal.num 1)]] : Store)).length) ∧
    ((fun _ : RerankRequest =>
        RerankResponse.mk (some [RerankResult.mk 1 (JVal.num 9)]) none)
      (rerankRequestOf ⟨"m", some 3, none, ""⟩
        ([Document.mk ("doc0") 0, Document.mk ("doc1") 1].map DocItem.doc)
        "q" none none)).results? = some [RerankResult.mk 1 (JVal.num 9)] ∧
    (∀ res ∈ [RerankResult.mk 1 (JVal.num 9)],
      0 ≤ res.index ∧
        res.index < (([Document.mk ("doc0") 0, Document.mk ("doc1") 1].length : Int))) ∧
    ∃ s' out,
      (compress_documents ⟨"m", some 3, none, ""⟩
          (fun _ => ⟨some [RerankResult.mk 1 (JVal.num 9)], none⟩)
          [[("id", JVal.num 0)], [("id", JVal.num 1)]]
          [Document.mk ("doc0") 0, Document.mk ("doc1") 1] "q").1 = .ok (s', out) ∧
      (acompress_documents ⟨"m", some 3, none, ""⟩
          (fun _ => ⟨some [RerankResult.mk 1 (JVal.num 9)], none⟩)
          [[("id", JVal.num 0)], [("id", JVal.num 1)]]
          [Document.mk ("doc0") 0, Document.mk ("doc1") 1] "q").1 = .ok (s', out) ∧
      out.length = ([RerankResult.mk 1 (JVal.num 9)] : List RerankResult).length ∧
      ∀ i, ∀ hi : i < ([RerankResult.mk 1 (JVal.num 9)] : List RerankResult).length,
        ∀ ho : i < out.length,
        ∃ od, [Document.mk ("doc0") 0, Document.mk ("doc1") 1].get?
            (([RerankResult.mk 1 (JVal.num 9)] : List RerankResult).get ⟨i, hi⟩).index.toNat =
              some od ∧
          (out.get ⟨i, ho⟩).page_content = od.page_content ∧
          Store.read s' (out.get ⟨i, ho⟩).metaAddr =
            setKey (Store.read ([[("id", JVal.num 0)], [("id", JVal.num 1)]] : Store)
                od.metaAddr) ("relevance_score")
              (([RerankResult.mk 1 (JVal.num 9)] : List RerankResult).get ⟨i, hi⟩).relevance_score :=
  ⟨by decide, rfl, by simp,
    compress_documents_selects_original ⟨"m", some 3, none, ""⟩
      (fun _ => ⟨some [RerankResult.mk 1 (JVal.num 9)], none⟩)
      [[("id", JVal.num 0)], [("id", JVal.num 1)]]
      [Document.mk ("doc0") 0, Document.mk ("doc1") 1] "q"
      [RerankResult.mk 1 (JVal.num 9)] (by decide) rfl (by simp)⟩

/-- C4: `_build_compressed_docs` never mutates the caller's documents:
every original metadata dict reads back unchanged, every returned
document refers to a fresh metadata dict distinct from all original
ones, and each new metadata dict equals the (deep-copied) original
metadata with only `relevance_score` assigned. -/
theorem build_compressed_docs_no_mutation (s : Store) (documents : List Document)
    (results : List RerankResult) (s' : Store) (out : List Document)
    (hdocs : ∀ d ∈ documents, d.metaAddr < s.length)
    (h : buildCompressedDocs s documents results = some (s', out)) :
    (∀ d ∈ documents, Store.read s' d.metaAddr = Store.read s d.metaAddr) ∧
    (∀ nd ∈ out, ∀ d ∈ documents, nd.metaAddr ≠ d.metaAddr) ∧
    (∀ i, ∀ hi : i < results.length, ∀ ho : i < out.length,
      ∃ od, pyGet? documents (results.get ⟨i, hi⟩).index = some od ∧
        (out.get ⟨i, ho⟩).page_content = od.page_content ∧
        Store.read s' (out.get ⟨i, ho⟩).metaAddr =
          setKey (Store.read s od.metaAddr) ("relevance_score")
            (results.get ⟨i, hi⟩).relevance_score) := by
  obtain ⟨hlen, hframe, hfresh, hcount, hpoint⟩ :=
    buildCompressedDocs_spec results s documents s' out hdocs h
  refine ⟨?_, ?_, hpoint⟩
  · intro d hd
    exact hframe _ (hdocs d hd)
  · intro nd hnd d hd
    have h1 := hfresh nd hnd
    have h2 := hdocs d hd
    omega

theorem build_compressed_docs_no_mutation_witness :
    (∀ d ∈ [Document.mk ("d") 0],
      d.metaAddr < (([[("k", JVal.str ("v"))]] : Store)).length) ∧
    buildCompressedDocs [[("k", JVal.str ("v"))]] [Document.mk ("d") 0]
        [RerankResult.mk 0 (JVal.num 1)] =
      some ([[("k", JVal.str ("v"))],
             [("k", JVal.str ("v")), ("relevance_score", JVal.num 1)]],
            [Document.mk ("d") 1]) ∧
    ((∀ d ∈ [Document.mk ("d") 0],
        Store.read [[("k", JVal.str ("v"))],
          [("k", JVal.str ("v")), ("relevance_score", JVal.num 1)]] d.metaAddr =
          Store.read [[("k", JVal.str ("v"))]] d.metaAddr) ∧
      (∀ nd ∈ [Document.mk ("d") 1], ∀ d ∈ [Document.mk ("d") 0],
        nd.metaAddr ≠ d.metaAddr) ∧
      (∀ i, ∀ hi : i < ([RerankResult.mk 0 (JVal.num 1)] : List RerankResult).length,
        ∀ ho : i < ([Document.mk ("d") 1] : List Document).length,
        ∃ od, pyGet? [Document.mk ("d") 0]
            (([RerankResult.mk 0 (JVal.num 1)] : List RerankResult).get ⟨i, hi⟩).index =
              some od ∧
          (([Document.mk ("d") 1] : List Document).get ⟨i, ho⟩).page_content =
            od.page_content ∧
          Store.read [[("k", JVal.str ("v"))],
              [("k", JVal.str ("v")), ("relevance_score", JVal.num 1)]]
              (([Document.mk ("d") 1] : List Document).get ⟨i, ho⟩).metaAddr =
            setKey (Store.read [[("k", JVal.str ("v"))]] od.metaAddr)
              ("relevance_score")
              (([RerankResult.mk 0 (JVal.num 1)] : List RerankResult).get ⟨i, hi⟩).relevance_score)) :=
  ⟨by decide, rfl,
    build_compressed_docs_no_mutation [[("k", JVal.str ("v"))]] [Document.mk ("d") 0]
      [RerankResult.mk 0 (JVal.num 1)]
      [[("k", JVal.str ("v"))],
        [("k", JVal.str ("v")), ("relevance_score", JVal.num 1)]]
      [Document.mk ("d") 1] (by decide) rfl⟩

/-- C6: `embed_documents` returns one vector per input text, and
`embed_query` is index 0 of a one-element `embed_documents` batch. -/
theorem embed_documents_length_and_query_unwrap (e : LocalAIEmbeddings)
    (server : EmbeddingRequest → List EmbeddingData)
    (hserver : ∀ q, (server q).length = q.input.length)
    (texts : List String) (t : String) (chunkArg chunkArg2 : Option Int) :
    (embed_documents e server texts chunkArg).1.length = texts.length ∧
    (embed_query e server t).1 = (embed_documents e server [t] chunkArg2).1.get? 0 := by
  constructor
  · simp [embed_documents, embedding_func, hserver, TextInput.toInputList]
  · rfl

theorem embed_documents_length_and_query_unwrap_witness :
    (∀ q, ((fun q : EmbeddingRequest => q.input.map (fun _ => EmbeddingData.mk [])) q).length =
      q.input.length) ∧
    (embed_documents ⟨"m", "m", 1000, []⟩
        (fun q => q.input.map (fun _ => EmbeddingData.mk [])) ["a", "b"] none).1.length =
      (["a", "b"] : List String).length ∧
    (embed_query ⟨"m", "m", 1000, []⟩
        (fun q => q.input.map (fun _ => EmbeddingData.mk [])) "x").1 =
      (embed_documents ⟨"m", "m", 1000, []⟩
        (fun q => q.input.map (fun _ => EmbeddingData.mk [])) ["x"] none).1.get? 0 :=
  ⟨fun q => by simp,
    (embed_documents_length_and_query_unwrap ⟨"m", "m", 1000, []⟩
      (fun q => q.input.map (fun _ => EmbeddingData.mk [])) (fun q => by simp)
      ["a", "b"] "x" none none).1,
    (embed_documents_length_and_query_unwrap ⟨"m", "m", 1000, []⟩
      (fun q => q.input.map (fun _ => EmbeddingData.mk [])) (fun q => by simp)
      ["a", "b"] "x" none none).2⟩

/-- C10: server-returned indices are not validated: an entry whose
`index` is at least the number of input documents makes
`_build_compressed_docs` raise (return `none`), while a negative
`index` of absolute value at most the list length silently selects the
document counted from the end of the original list. -/
theorem server_index_validation (s : Store) (documents : List Document)
    (results : List RerankResult) (res neg : RerankResult)
    (h1 : res ∈ results) (h2 : (documents.length : Int) ≤ res.index)
    (h3 : neg.index < 0) (h4 : neg.index.natAbs ≤ documents.length) :
    buildCompressedDocs s documents results = none ∧
    ∃ od, documents.get? (documents.length - neg.index.natAbs) = some od ∧
      ∃ s' out, buildCompressedDocs s documents [neg] = some (s', out) ∧
        out.map Document.page_content = [od.page_content] := by
  constructor
  · exact buildCompressedDocs_none_of_bad results s documents
      ⟨res, h1, pyGet?_none_of_ge documents res.index h2⟩
  · have habs : 1 ≤ neg.index.natAbs := by
      have := Int.natAbs_pos.mpr (by omega : neg.index ≠ 0)
      omega
    have hlt : documents.length - neg.index.natAbs < documents.length := by omega
    obtain ⟨od, hod⟩ : ∃ od,
        documents.get? (documents.length - neg.index.natAbs) = some od := by
      rw [List.get?_eq_get hlt]
      exact ⟨_, rfl⟩
    have hpy : pyGet? documents neg.index = some od := by
      rw [pyGet?_neg _ _ h3 h4]
      exact hod
    refine ⟨od, hod, ?_⟩
    simp only [buildCompressedDocs, hpy, Store.alloc]
    exact ⟨_, _, rfl, by simp⟩

theorem server_index_validation_witness :
    RerankResult.mk 2 (JVal.num 1) ∈ [RerankResult.mk 2 (JVal.num 1)] ∧
    (([Document.mk ("a") 0, Document.mk ("b") 1].length : Int)) ≤
      (RerankResult.mk 2 (JVal.num 1)).index ∧
    (RerankResult.mk (-1) (JVal.num 1)).index < 0 ∧
    (RerankResult.mk (-1) (JVal.num 1)).index.natAbs ≤
      [Document.mk ("a") 0, Document.mk ("b") 1].length ∧
    (buildCompressedDocs [] [Document.mk ("a") 0, Document.mk ("b") 1]
        [RerankResult.mk 2 (JVal.num 1)] = none ∧
      ∃ od, [Document.mk ("a") 0, Document.mk ("b") 1].get?
          ([Document.mk ("a") 0, Document.mk ("b") 1].length -
            (RerankResult.mk (-1) (JVal.num 1)).index.natAbs) = some od ∧
        ∃ s' out, buildCompressedDocs [] [Document.mk ("a") 0, Document.mk ("b") 1]
            [RerankResult.mk (-1) (JVal.num 1)] = some (s', out) ∧
          out.map Document.page_content = [od.page_content]) :=
  ⟨List.mem_singleton.mpr rfl, by decide, by decide, by decide,
    server_index_validation [] [Document.mk ("a") 0, Document.mk ("b") 1]
      [RerankResult.mk 2 (JVal.num 1)] (RerankResult.mk 2 (JVal.num 1))
      (RerankResult.mk (-1) (JVal.num 1)) (List.mem_singleton.mpr rfl)
      (by decide) (by decide) (by decide)⟩

end LangchainLocalai
